import Mathlib

/-!
Shallow embedding of the SAM3 segmentation-result post-processing pipeline
(`apps/api-inference/src/app`): mask-to-polygon conversion (`mask_utils.py`),
visualization compositing (`visualizer.py`), and the per-request / per-batch
orchestration (`inference.py`, `routers/sam3.py`, `config.py`).

External collaborators (the HuggingFace model adapter, OpenCV's contour
tracer and polygon simplifier, PIL/matplotlib raster operations) are not code
of this repository; they are modelled from the spec where a definition is
needed, and otherwise passed in as explicit function parameters.
-/

namespace Sam3

/-- A pixel coordinate (x, y), as produced by the contour tracer. -/
abbrev Pt := Int × Int

/-- A binary mask: rows (outer list, index y) of pixels (inner list, index x).
Embeds the `[H, W]` tensor of 0.0/1.0 values of `mask_utils.py`. -/
abbrev Mask := List (List Bool)

/-- Value of pixel (x, y); out-of-bounds reads are background, matching the
dense tensor model where no out-of-bounds access occurs. -/
def maskGet (m : Mask) (x y : Int) : Bool :=
  if 0 ≤ y ∧ 0 ≤ x then (((m.get? y.toNat).getD []).get? x.toNat).getD false
  else false

/-- Value at a point. -/
def maskGetP (m : Mask) (p : Pt) : Bool := maskGet m p.1 p.2

/-- Coordinates of the foreground pixels of one row, scanning left to right. -/
def rowCoords (y : Int) : Int → List Bool → List Pt
  | _, [] => []
  | x, b :: rest => (if b then [(x, y)] else []) ++ rowCoords y (x + 1) rest

/-- Coordinates of the foreground pixels of the rows below `y`, row-major. -/
def maskCoordsAux : Int → List (List Bool) → List Pt
  | _, [] => []
  | y, row :: rest => rowCoords y 0 row ++ maskCoordsAux (y + 1) rest

/-- Row-major list of all foreground pixel coordinates of a mask.  Its length
is the exact foreground pixel count, the value of `mask.sum().item()` on a
0.0/1.0 mask tensor. -/
def maskCoords (m : Mask) : List Pt := maskCoordsAux 0 m

/-- The 8-neighbourhood of a pixel (spec section 4.1: 8-connectivity). -/
def nbrs8 (p : Pt) : List Pt :=
  [(p.1 - 1, p.2 - 1), (p.1, p.2 - 1), (p.1 + 1, p.2 - 1),
   (p.1 - 1, p.2), (p.1 + 1, p.2),
   (p.1 - 1, p.2 + 1), (p.1, p.2 + 1), (p.1 + 1, p.2 + 1)]

/-- The 4-neighbourhood of a pixel. -/
def nbrs4 (p : Pt) : List Pt :=
  [(p.1 + 1, p.2), (p.1 - 1, p.2), (p.1, p.2 + 1), (p.1, p.2 - 1)]

/-- A foreground pixel on the boundary of its region: at least one
4-neighbour is background. -/
def isBorderPixel (m : Mask) (p : Pt) : Bool :=
  (nbrs4 p).any (fun q => !(maskGetP m q))

/-- Breadth-first growth of one 8-connected foreground component.  `visited`
always contains every enqueued pixel; the fuel bounds the number of dequeue
steps and is instantiated with the total foreground count, which the
enqueue-once discipline never exhausts. -/
def growComponent (m : Mask) : Nat → List Pt → List Pt → List Pt
  | 0, _, visited => visited
  | _ + 1, [], visited => visited
  | fuel + 1, p :: rest, visited =>
      let fresh := (nbrs8 p).filter (fun q => maskGetP m q && !(visited.contains q))
      growComponent m fuel (rest ++ fresh) (visited ++ fresh)

/-- All 8-connected foreground components, discovered in row-major scan
order of their first pixel. -/
def componentsAux (m : Mask) : List Pt → List Pt → List (List Pt)
  | [], _ => []
  | p :: rest, seen =>
      if seen.contains p then componentsAux m rest seen
      else
        let comp := growComponent m (maskCoords m).length [p] [p]
        comp :: componentsAux m rest (seen ++ comp)

/-- The 8-connected foreground components of a mask. -/
def components (m : Mask) : List (List Pt) := componentsAux m (maskCoords m) []

/-- Modelled from the spec: ContourExtractor (`cv2.findContours` with
`RETR_TREE` and `CHAIN_APPROX_SIMPLE`, an external OpenCV routine).  The spec
requires tracing the boundary of every connected foreground region with
8-connectivity, deterministically.  Modelled as the border pixels of each
8-connected foreground component in a deterministic enumeration order; a mask
with no foreground pixels yields no contours.  Hole boundaries and the exact
trace order of vertices are not modelled; none of the properties proved below
depends on them. -/
def findContours (m : Mask) : List (List Pt) :=
  (components m).map (fun comp => comp.filter (fun p => isBorderPixel m p))

/-- Numerator of the exact squared distance from point `p` to the line
through `a` and `b` (the Douglas-Peucker distance measure as OpenCV computes
it: cross product squared over chord length squared), or to the point `a`
when the chord is degenerate. -/
def sqDistNum (a b p : Pt) : Int :=
  let dx := b.1 - a.1
  let dy := b.2 - a.2
  let px := p.1 - a.1
  let py := p.2 - a.2
  if dx = 0 ∧ dy = 0 then px * px + py * py
  else (px * dy - py * dx) * (px * dy - py * dx)

/-- Denominator of the exact squared distance from `p` to the chord `a`-`b`;
always positive. -/
def sqDistDen (a b _p : Pt) : Int :=
  let dx := b.1 - a.1
  let dy := b.2 - a.2
  if dx = 0 ∧ dy = 0 then 1 else dx * dx + dy * dy

/-- Index (within `mid`), numerator, and denominator of the first maximal
squared distance to the chord `a`-`b`, accumulated left to right; fractions
are compared exactly by cross-multiplication (denominators are positive).
The index does not depend on the simplification tolerance. -/
def farthestAux (a b : Pt) : List Pt → Nat → Nat × Int × Int → Nat × Int × Int
  | [], _, best => best
  | p :: rest, i, best =>
      if best.2.1 * sqDistDen a b p < sqDistNum a b p * best.2.2 then
        farthestAux a b rest (i + 1) (i, sqDistNum a b p, sqDistDen a b p)
      else farthestAux a b rest (i + 1) best

/-- First farthest interior point from the chord; the sentinel value -1 is
below every (nonnegative) squared distance, so for a nonempty `mid` the
result names an actual element. -/
def farthest (a b : Pt) (mid : List Pt) : Nat × Int × Int :=
  farthestAux a b mid 0 (0, -1, 1)

/-- The Douglas-Peucker collapse test: is the squared distance
`dnum / dden` at most the tolerance squared?  Exact comparison with
denominators cleared (`dden` and `eps.den` are positive), equivalent to
OpenCV's comparison of the distance against epsilon squared. -/
def distLeSqTol (eps : ℚ) (dnum dden : Int) : Prop :=
  dnum * ((eps.den : Int) * (eps.den : Int)) ≤ eps.num * eps.num * dden

instance (eps : ℚ) (dnum dden : Int) : Decidable (distLeSqTol eps dnum dden) :=
  inferInstanceAs (Decidable (_ ≤ _))

/-- Douglas-Peucker reduction of the polyline `a :: mid ++ [b]` at tolerance
`eps`, keeping both endpoints.  The fuel bounds the recursion depth;
instantiated with `mid.length` it is never exhausted because each split
strictly shrinks the interior. -/
def rdpSegF (eps : ℚ) : Nat → Pt → List Pt → Pt → List Pt
  | _, a, [], b => [a, b]
  | 0, a, _ :: _, b => [a, b]
  | Nat.succ fuel, a, p :: ps, b =>
      if distLeSqTol eps (farthest a b (p :: ps)).2.1 (farthest a b (p :: ps)).2.2 then
        [a, b]
      else
        rdpSegF eps fuel a ((p :: ps).take (farthest a b (p :: ps)).1)
            (((p :: ps).get? (farthest a b (p :: ps)).1).getD a) ++
          (rdpSegF eps fuel (((p :: ps).get? (farthest a b (p :: ps)).1).getD a)
            ((p :: ps).drop ((farthest a b (p :: ps)).1 + 1)) b).tail

/-- Modelled from the spec: PolygonSimplifier (`cv2.approxPolyDP` with
`closed=True`, an external OpenCV routine).  The spec specifies the standard
Ramer-Douglas-Peucker reduction at tolerance epsilon, preserving the
first/last vertex semantics; modelled as Douglas-Peucker over the vertex
sequence anchored at its first and last points, with exact rational
arithmetic and the tolerance squared as in OpenCV. -/
def approxPolyDP (contour : List Pt) (eps : ℚ) : List Pt :=
  match contour with
  | [] => []
  | a :: rest =>
    match rest.getLast? with
    | none => [a]
    | some b => rdpSegF eps rest.dropLast.length a rest.dropLast b

/-- The per-contour loop of `mask_to_polygons` (mask_utils.py lines 35-58):
skip contours of fewer than 3 traced points, simplify the rest, and keep only
simplified polygons of at least 3 points.  (The numpy `squeeze` repacking of
a single-point result changes nothing here: a one-point or two-point polygon
is dropped either way.) -/
def polygonsOfContours (contours : List (List Pt)) (simplify_tolerance : ℚ) :
    List (List Pt) :=
  contours.filterMap (fun contour =>
    if contour.length < 3 then none
    else
      let polygon := approxPolyDP contour simplify_tolerance
      if polygon.length ≥ 3 then some polygon else none)

/-- `mask_to_polygons` (mask_utils.py): trace the contours of a binary mask
and convert each to a simplified polygon. -/
def mask_to_polygons (mask : Mask) (simplify_tolerance : ℚ) : List (List Pt) :=
  polygonsOfContours (findContours mask) simplify_tolerance

/-- `calculate_mask_area` (mask_utils.py): `float(mask.sum().item())`, the
number of foreground pixels of a 0.0/1.0 mask. -/
def calculate_mask_area (mask : Mask) : ℚ := ((maskCoords mask).length : ℚ)

/-- One entry of the list returned by `masks_to_polygon_data`
(`{"polygons": ..., "area": ...}`). -/
structure PolyData where
  polygons : List (List Pt)
  area : ℚ
deriving Repr, DecidableEq

/-- `masks_to_polygon_data` (mask_utils.py): polygons and area for each mask
of a batch, in input order. -/
def masks_to_polygon_data (masks : List Mask) (simplify_tolerance : ℚ) :
    List PolyData :=
  masks.map (fun mask =>
    { polygons := mask_to_polygons mask simplify_tolerance
      area := calculate_mask_area mask })

/-- A decoded image (PIL `Image`): pixel dimensions, colour mode, and an
opaque payload standing for the pixel data handled by the external imaging
library. -/
structure Img where
  width : Nat
  height : Nat
  mode : String
  data : List Nat
deriving Repr, DecidableEq

/-- An uploaded file (`UploadFile`): the encoded payload size in bytes, and
the image the external decoder yields for it (`none` when `Image.open`
raises on a malformed payload). -/
structure Upload where
  sizeBytes : Nat
  image : Option Img
deriving Repr, DecidableEq

/-- The configuration fields of `config.py` consumed by the pipeline. -/
structure Settings where
  MAX_IMAGE_SIZE_MB : Nat
  MAX_BATCH_SIZE : Nat
  MAX_IMAGE_DIMENSION : Nat
  VISUALIZATION_FORMAT : String
  VISUALIZATION_QUALITY : Nat
deriving Repr, DecidableEq

/-- The default values of `config.py`. -/
def defaultSettings : Settings :=
  { MAX_IMAGE_SIZE_MB := 10
    MAX_BATCH_SIZE := 10
    MAX_IMAGE_DIMENSION := 4096
    VISUALIZATION_FORMAT := "PNG"
    VISUALIZATION_QUALITY := 95 }

/-- The Python exceptions the pipeline can raise or propagate.  Message
texts are simplified to fixed strings; no property below depends on them. -/
inductive PyErr where
  | valueError (msg : String)
  | zeroDivisionError
  | unidentifiedImageError
  | runtimeError (msg : String)
deriving Repr, DecidableEq

/-- The per-image triple returned by the external model adapter after
`post_process_instance_segmentation` (spec section 6): bounding boxes,
confidence scores, and one binary mask per accepted object. -/
structure AdapterOutput where
  boxes : List (List ℚ)
  scores : List ℚ
  masks : List Mask
deriving Repr, DecidableEq

/-- Modelled from the spec: the external collaborators consumed by the core
(the model adapter of spec section 6, and the PIL/matplotlib raster
operations of section 4.4), each of which may raise. -/
structure Deps where
  adapterText : Img → String → ℚ → ℚ → Except PyErr AdapterOutput
  adapterBox : Img → List (List Int) → List Int → ℚ → ℚ → Except PyErr AdapterOutput
  adapterBatch : List Img → List (Option String) → ℚ → ℚ → Except PyErr (List AdapterOutput)
  composite : Img → List Mask → List (List ℚ) → Option (List ℚ) → ℚ → Bool → Bool → Except PyErr Img
  encodePNG : Img → Except PyErr (List Nat)
  encodeJPEG : Img → Nat → Except PyErr (List Nat)

/-- `draw_masks_and_boxes` (visualizer.py): with zero objects the source
image is returned unmodified before any drawing happens; otherwise the
colormap/compositing/box-drawing work is performed by the external imaging
libraries. -/
def draw_masks_and_boxes (dp : Deps) (image : Img) (masks : List Mask)
    (boxes : List (List ℚ)) (scores : Option (List ℚ)) (alpha : ℚ)
    (draw_boxes draw_masks : Bool) : Except PyErr Img :=
  if masks.length = 0 then .ok image
  else dp.composite image masks boxes scores alpha draw_boxes draw_masks

/-- Python `str.upper()` on ASCII format names. -/
def pyUpper (s : String) : String := ⟨s.data.map Char.toUpper⟩

/-- `encode_image_to_bytes` (visualizer.py): JPEG at the given quality when
the format upper-cases to "JPEG", PNG otherwise. -/
def encode_image_to_bytes (dp : Deps) (image : Img) (format : String)
    (quality : Nat) : Except PyErr (List Nat) :=
  if pyUpper format = "JPEG" then dp.encodeJPEG image quality
  else dp.encodePNG image

/-- `create_visualization` (visualizer.py): draw, then encode with the
configured format and quality. -/
def create_visualization (dp : Deps) (cfg : Settings) (image : Img)
    (masks : List Mask) (boxes : List (List ℚ)) (scores : Option (List ℚ))
    (alpha : ℚ) (draw_boxes draw_masks : Bool) : Except PyErr (List Nat) := do
  let viz_image ← draw_masks_and_boxes dp image masks boxes scores alpha draw_boxes draw_masks
  encode_image_to_bytes dp viz_image cfg.VISUALIZATION_FORMAT cfg.VISUALIZATION_QUALITY

/-- The standard base64 alphabet. -/
def b64Alphabet : List Char :=
  "ABCDEFGHIJKLMNOPQRSTUVWXYZabcdefghijklmnopqrstuvwxyz0123456789+/".toList

/-- The base64 character of a 6-bit value. -/
def b64Char (n : Nat) : Char := b64Alphabet.getD n 'A'

/-- `base64.b64encode`: standard base64 with '=' padding, three input bytes
per four output characters. -/
def b64encode : List Nat → List Char
  | [] => []
  | [a] => [b64Char (a / 4), b64Char (a % 4 * 16), '=', '=']
  | [a, b] => [b64Char (a / 4), b64Char (a % 4 * 16 + b / 16), b64Char (b % 16 * 4), '=']
  | a :: b :: c :: rest =>
      b64Char (a / 4) :: b64Char (a % 4 * 16 + b / 16) ::
        b64Char (b % 16 * 4 + c / 64) :: b64Char (c % 64) :: b64encode rest

/-- Python `round(x, 2)`: round to two decimals, ties to even. -/
def pyRound2 (x : ℚ) : ℚ :=
  let y := x * 100
  let f := Int.floor y
  let r : Int :=
    if y - f < 1 / 2 then f
    else if y - f > 1 / 2 then f + 1
    else if f % 2 = 0 then f else f + 1
  (r : ℚ) / 100

/-- Python `/` on numbers: raises `ZeroDivisionError` on a zero divisor. -/
def pyDiv (a b : ℚ) : Except PyErr ℚ :=
  if b = 0 then .error .zeroDivisionError else .ok (a / b)

/-- The exception mapping of the route handlers (routers/sam3.py): a
`ValueError` becomes HTTP 400 (client fault), any other exception HTTP 500
(server fault). -/
def routerStatus : PyErr → Nat
  | .valueError _ => 400
  | _ => 500

/-- `_load_image_from_upload` (inference.py): reject an encoded payload over
the megabyte ceiling, decode, normalize the colour mode to RGB, and reject
an image whose width or height exceeds the configured maximum. -/
def load_image_from_upload (cfg : Settings) (file : Upload) : Except PyErr Img :=
  -- The Python comparison is `len(content) / (1024 * 1024) > MAX_IMAGE_SIZE_MB`
  -- in float64; division by the power of two 2^20 is exact there, so the
  -- comparison equals this integer comparison with denominators cleared.
  if cfg.MAX_IMAGE_SIZE_MB * 1024 * 1024 < file.sizeBytes then
    .error (.valueError "image size exceeds limit")
  else
    match file.image with
    | none => .error .unidentifiedImageError
    | some image0 =>
      let image := if image0.mode ≠ "RGB" then { image0 with mode := "RGB" } else image0
      if cfg.MAX_IMAGE_DIMENSION < image.width ∨ cfg.MAX_IMAGE_DIMENSION < image.height then
        .error (.valueError "image dimensions exceed limit")
      else .ok image

/-- The response dict of a single-image inference. -/
structure InferenceResponse where
  num_objects : Nat
  boxes : List (List ℚ)
  scores : List ℚ
  masks : List PolyData
  processing_time_ms : ℚ
  visualization_base64 : Option (List Char)
deriving Repr, DecidableEq

/-- The response-assembly block shared verbatim by `inference_text` and
`inference_bbox` (inference.py lines 153-186 and 244-277): count objects,
convert masks to polygon data at the default tolerance 1.5, build the
response with an absent visualization field, and attach base64-encoded
visualization bytes when it was requested and at least one object was
detected. -/
def finish_single (dp : Deps) (cfg : Settings) (elapsedMs : ℚ) (image : Img)
    (results : AdapterOutput) (return_visualization : Bool) :
    Except PyErr InferenceResponse :=
  let num_objects := results.scores.length
  let response : InferenceResponse :=
    { num_objects := num_objects
      boxes := results.boxes
      scores := results.scores
      masks := masks_to_polygon_data results.masks (3 / 2)
      processing_time_ms := pyRound2 elapsedMs
      visualization_base64 := none }
  if return_visualization = true ∧ 0 < num_objects then
    match create_visualization dp cfg image results.masks results.boxes
        (some results.scores) (1 / 2) true true with
    | .error e => .error e
    | .ok viz_bytes => .ok { response with visualization_base64 := some (b64encode viz_bytes) }
  else .ok response

/-- `inference_text` (inference.py): load and validate the image, invoke the
model adapter with the text prompt, assemble the response.  The second
component records whether the external model adapter was invoked; wall-clock
timing is passed in as the measured elapsed time. -/
def inference_text (dp : Deps) (cfg : Settings) (elapsedMs : ℚ)
    (image_file : Upload) (text_prompt : String) (threshold mask_threshold : ℚ)
    (return_visualization : Bool) : Except PyErr InferenceResponse × Bool :=
  match load_image_from_upload cfg image_file with
  | .error e => (.error e, false)
  | .ok image =>
    match dp.adapterText image text_prompt threshold mask_threshold with
    | .error e => (.error e, true)
    | .ok results => (finish_single dp cfg elapsedMs image results return_visualization, true)

/-- `inference_bbox` (inference.py): identical to `inference_text` except
that the adapter is invoked with box prompts and labels. -/
def inference_bbox (dp : Deps) (cfg : Settings) (elapsedMs : ℚ)
    (image_file : Upload) (bounding_boxes : List (List Int)) (box_labels : List Int)
    (threshold mask_threshold : ℚ) (return_visualization : Bool) :
    Except PyErr InferenceResponse × Bool :=
  match load_image_from_upload cfg image_file with
  | .error e => (.error e, false)
  | .ok image =>
    match dp.adapterBox image bounding_boxes box_labels threshold mask_threshold with
    | .error e => (.error e, true)
    | .ok results => (finish_single dp cfg elapsedMs image results return_visualization, true)

/-- The image-loading loop of `inference_batch` (inference.py lines 312-316):
images are loaded sequentially and the first failure propagates. -/
def load_all (cfg : Settings) : List Upload → Except PyErr (List Img)
  | [] => .ok []
  | f :: rest => do
      let image ← load_image_from_upload cfg f
      let images ← load_all cfg rest
      .ok (image :: images)

/-- One entry of the batch result list.  It mirrors the `BatchImageResult`
schema (schemas/sam3.py lines 55-63), which carries no error descriptor
field. -/
structure BatchItemResponse where
  image_index : Nat
  num_objects : Nat
  boxes : List (List ℚ)
  scores : List ℚ
  masks : List PolyData
  visualization_base64 : Option (List Char)
deriving Repr, DecidableEq

/-- The batch response dict (`BatchInferenceResult`). -/
structure BatchResponse where
  total_images : Nat
  results : List BatchItemResponse
  total_processing_time_ms : ℚ
  average_time_per_image_ms : ℚ
deriving Repr, DecidableEq

/-- The per-image result loop of `inference_batch` (inference.py lines
333-364): each zipped (image, adapter result) pair is converted in order,
with `enumerate`-style indices; a visualization failure propagates out of
the loop. -/
def buildItems (dp : Deps) (cfg : Settings) (return_visualizations : Bool) :
    Nat → List (Img × AdapterOutput) → Except PyErr (List BatchItemResponse)
  | _, [] => .ok []
  | idx, (image, result) :: rest => do
      let num_objects := result.scores.length
      let base : BatchItemResponse :=
        { image_index := idx
          num_objects := num_objects
          boxes := result.boxes
          scores := result.scores
          masks := masks_to_polygon_data result.masks (3 / 2)
          visualization_base64 := none }
      let item ←
        if return_visualizations = true ∧ 0 < num_objects then do
          let viz_bytes ← create_visualization dp cfg image result.masks result.boxes
            (some result.scores) (1 / 2) true true
          pure { base with visualization_base64 := some (b64encode viz_bytes) }
        else pure base
      let items ← buildItems dp cfg return_visualizations (idx + 1) rest
      .ok (item :: items)

/-- `inference_batch` (inference.py lines 279-377): reject an oversized
batch, load every image (first failure aborts), invoke the model adapter
once for the whole batch, convert each image's results, then assemble the
response, whose average-time field divides the elapsed time by the number
of submitted images. -/
def inference_batch (dp : Deps) (cfg : Settings) (elapsedMs : ℚ)
    (image_files : List Upload) (text_prompts : List (Option String))
    (threshold mask_threshold : ℚ) (return_visualizations : Bool) :
    Except PyErr BatchResponse :=
  if cfg.MAX_BATCH_SIZE < image_files.length then
    .error (.valueError "batch size exceeds max")
  else do
    let images ← load_all cfg image_files
    let results ← dp.adapterBatch images text_prompts threshold mask_threshold
    let batch_results ← buildItems dp cfg return_visualizations 0 (images.zip results)
    let avg ← pyDiv elapsedMs (image_files.length : ℚ)
    .ok { total_images := image_files.length
          results := batch_results
          total_processing_time_ms := pyRound2 elapsedMs
          average_time_per_image_ms := pyRound2 avg }

/-- The `/inference/batch` route handler (routers/sam3.py lines 174-246)
after JSON parsing: reject a length mismatch between images and prompts with
HTTP 400, run `inference_batch`, and map a raised exception to its HTTP
status. -/
def batch_endpoint (dp : Deps) (cfg : Settings) (elapsedMs : ℚ)
    (images : List Upload) (prompts : List (Option String))
    (threshold mask_threshold : ℚ) (return_visualizations : Bool) :
    Except (Nat × PyErr) BatchResponse :=
  if images.length ≠ prompts.length then
    .error (400, .valueError "length mismatch")
  else
    match inference_batch dp cfg elapsedMs images prompts threshold mask_threshold
        return_visualizations with
    | .ok r => .ok r
    | .error e => .error (routerStatus e, e)

/-! Concrete sample inputs used by witnesses and counterexamples. -/

/-- The traced contour of a 3-pixel horizontal line with a one-pixel step:
three points, which Douglas-Peucker at tolerance 1 collapses to two. -/
def cexContour : List Pt := [(0, 0), (2, 0), (2, 1)]

/-- A 3x3 L-shaped mask. -/
def wMask : Mask := [[true, false, false], [true, false, false], [true, true, true]]

/-- A single-pixel mask. -/
def mask1 : Mask := [[true]]

/-- A small valid image. -/
def imgOk : Img := { width := 4, height := 4, mode := "RGB", data := [] }

/-- A small upload decoding to `imgOk`. -/
def fileOk : Upload := { sizeBytes := 100, image := some imgOk }

/-- An image whose width exceeds the default maximum dimension of 4096. -/
def imgBig : Img := { width := 5000, height := 10, mode := "RGB", data := [] }

/-- A small upload decoding to the over-wide `imgBig`. -/
def fileBig : Upload := { sizeBytes := 100, image := some imgBig }

/-- An adapter result with one detected object. -/
def adapterOut1 : AdapterOutput :=
  { boxes := [[0, 0, 1, 1]], scores := [1], masks := [mask1] }

/-- External collaborators that always succeed: every adapter call detects
one object and the encoders return a fixed nonempty byte buffer. -/
def dpOkViz : Deps :=
  { adapterText := fun _ _ _ _ => .ok adapterOut1
    adapterBox := fun _ _ _ _ _ => .ok adapterOut1
    adapterBatch := fun imgs _ _ _ => .ok (imgs.map (fun _ => adapterOut1))
    composite := fun im _ _ _ _ _ _ => .ok im
    encodePNG := fun _ => .ok [1, 2, 3]
    encodeJPEG := fun _ _ => .ok [1, 2, 3] }

/-- External collaborators whose image encoders raise. -/
def dpFailViz : Deps :=
  { dpOkViz with
    encodePNG := fun _ => .error (.runtimeError "encode failed")
    encodeJPEG := fun _ _ => .error (.runtimeError "encode failed") }

/-- The response `inference_text` assembles for `fileOk` under `dpOkViz`
with visualization requested. -/
def respOkViz : InferenceResponse :=
  { num_objects := 1
    boxes := [[0, 0, 1, 1]]
    scores := [1]
    masks := masks_to_polygon_data [mask1] (3 / 2)
    processing_time_ms := pyRound2 0
    visualization_base64 := some (b64encode [1, 2, 3]) }

/-! Helper lemmas. -/

theorem rowCoords_length (y : Int) :
    ∀ (x : Int) (row : List Bool), (rowCoords y x row).length = row.count true := by
  intro x row
  induction row generalizing x with
  | nil => simp [rowCoords]
  | cons b rest ih =>
    cases b <;> simp [rowCoords, ih, List.count_cons]

theorem maskCoordsAux_length :
    ∀ (y : Int) (rows : List (List Bool)),
      (maskCoordsAux y rows).length = (rows.map (fun row => row.count true)).sum := by
  intro y rows
  induction rows generalizing y with
  | nil => simp [maskCoordsAux]
  | cons row rest ih => simp [maskCoordsAux, rowCoords_length, ih]

/-- The foreground coordinate list counts exactly the `true` pixels. -/
theorem maskCoords_length (m : Mask) :
    (maskCoords m).length = (m.map (fun row => row.count true)).sum :=
  maskCoordsAux_length 0 m

/-- A mask without foreground pixels yields no contours, hence no polygons. -/
theorem mask_to_polygons_of_empty (m : Mask) (tol : ℚ) (h : maskCoords m = []) :
    mask_to_polygons m tol = [] := by
  simp [mask_to_polygons, findContours, components, h, componentsAux, polygonsOfContours]

/-- Every polygon the conversion loop keeps has at least 3 vertices. -/
theorem polygonsOfContours_mem {contours : List (List Pt)} {tol : ℚ}
    {poly : List Pt} (h : poly ∈ polygonsOfContours contours tol) :
    3 ≤ poly.length := by
  unfold polygonsOfContours at h
  rw [List.mem_filterMap] at h
  obtain ⟨c, -, hc⟩ := h
  by_cases h1 : c.length < 3
  · simp [h1] at hc
  · by_cases h2 : (approxPolyDP c tol).length ≥ 3
    · simp [h1, h2] at hc
      exact hc ▸ h2
    · simp [h1, h2] at hc

/-- The squared-distance denominator is always positive. -/
theorem sqDistDen_pos (a b p : Pt) : 0 < sqDistDen a b p := by
  simp only [sqDistDen]
  split
  · norm_num
  · rename_i h
    rw [not_and_or] at h
    rcases h with h | h
    · exact add_pos_of_pos_of_nonneg (mul_self_pos.2 h) (mul_self_nonneg _)
    · exact add_pos_of_nonneg_of_pos (mul_self_nonneg _) (mul_self_pos.2 h)

theorem farthestAux_den_pos (a b : Pt) :
    ∀ (l : List Pt) (i : Nat) (best : Nat × Int × Int), 0 < best.2.2 →
      0 < (farthestAux a b l i best).2.2 := by
  intro l
  induction l with
  | nil => intro i best h; simpa [farthestAux] using h
  | cons p rest ih =>
    intro i best h
    rw [farthestAux]
    split
    · exact ih _ _ (sqDistDen_pos a b p)
    · exact ih _ _ h

/-- The farthest-point fraction always has a positive denominator. -/
theorem farthest_den_pos (a b : Pt) (mid : List Pt) : 0 < (farthest a b mid).2.2 :=
  farthestAux_den_pos a b mid 0 (0, -1, 1) (by norm_num)

/-- The cross-multiplied collapse test says exactly that the squared
distance is at most the tolerance squared. -/
theorem distLeSqTol_iff (eps : ℚ) (dnum dden : Int) :
    distLeSqTol eps dnum dden ↔ (dnum : ℚ) ≤ eps * eps * (dden : ℚ) := by
  unfold distLeSqTol
  rw [← @Int.cast_le ℚ]
  push_cast
  have hd : (0 : ℚ) < (eps.den : ℚ) := by exact_mod_cast eps.pos
  have hnum : (eps.num : ℚ) = eps * (eps.den : ℚ) :=
    (div_eq_iff (ne_of_gt hd)).mp (Rat.num_div_den eps)
  rw [hnum]
  have hdd : (0 : ℚ) < (eps.den : ℚ) * (eps.den : ℚ) := by positivity
  constructor
  · intro h; nlinarith
  · intro h; nlinarith

/-- A collapse at a smaller nonnegative tolerance is also a collapse at a
larger one. -/
theorem distLeSqTol_mono (e1 e2 : ℚ) (h0 : 0 ≤ e1) (h12 : e1 ≤ e2)
    (dnum dden : Int) (hden : 0 < dden) (h : distLeSqTol e1 dnum dden) :
    distLeSqTol e2 dnum dden := by
  rw [distLeSqTol_iff] at h ⊢
  have hsq : e1 * e1 ≤ e2 * e2 := mul_le_mul h12 h12 h0 (h0.trans h12)
  have hd : (0 : ℚ) ≤ (dden : ℚ) := by exact_mod_cast hden.le
  nlinarith

/-- Douglas-Peucker output always retains both endpoints. -/
theorem two_le_rdpSegF (e : ℚ) :
    ∀ (fuel : Nat) (a : Pt) (mid : List Pt) (b : Pt),
      2 ≤ (rdpSegF e fuel a mid b).length := by
  intro fuel
  induction fuel with
  | zero => intro a mid b; cases mid <;> simp [rdpSegF]
  | succ n ih =>
    intro a mid b
    cases mid with
    | nil => simp [rdpSegF]
    | cons p ps =>
      rw [rdpSegF]
      split
      · simp
      · have h1 := ih a ((p :: ps).take (farthest a b (p :: ps)).1)
          (((p :: ps).get? (farthest a b (p :: ps)).1).getD a)
        have h2 := ih (((p :: ps).get? (farthest a b (p :: ps)).1).getD a)
          ((p :: ps).drop ((farthest a b (p :: ps)).1 + 1)) b
        simp only [List.length_append, List.length_tail]
        omega

/-- Douglas-Peucker vertex count is non-increasing in the tolerance: the
split point is the farthest point from the chord and does not depend on the
tolerance, so a larger tolerance collapses at least as often. -/
theorem rdpSegF_length_mono (e1 e2 : ℚ) (h0 : 0 ≤ e1) (h12 : e1 ≤ e2) :
    ∀ (fuel : Nat) (a : Pt) (mid : List Pt) (b : Pt),
      (rdpSegF e2 fuel a mid b).length ≤ (rdpSegF e1 fuel a mid b).length := by
  intro fuel
  induction fuel with
  | zero => intro a mid b; cases mid <;> simp [rdpSegF]
  | succ n ih =>
    intro a mid b
    cases mid with
    | nil => simp [rdpSegF]
    | cons p ps =>
      by_cases hd : distLeSqTol e2 (farthest a b (p :: ps)).2.1 (farthest a b (p :: ps)).2.2
      · have hcollapse : rdpSegF e2 (n + 1) a (p :: ps) b = [a, b] := by
          rw [rdpSegF, if_pos hd]
        rw [hcollapse]
        simpa using two_le_rdpSegF e1 (n + 1) a (p :: ps) b
      · have hd1 : ¬ distLeSqTol e1 (farthest a b (p :: ps)).2.1 (farthest a b (p :: ps)).2.2 :=
          fun hc => hd (distLeSqTol_mono e1 e2 h0 h12 _ _ (farthest_den_pos a b (p :: ps)) hc)
        rw [rdpSegF, rdpSegF, if_neg hd, if_neg hd1]
        have hL := ih a ((p :: ps).take (farthest a b (p :: ps)).1)
          (((p :: ps).get? (farthest a b (p :: ps)).1).getD a)
        have hR := ih (((p :: ps).get? (farthest a b (p :: ps)).1).getD a)
          ((p :: ps).drop ((farthest a b (p :: ps)).1 + 1)) b
        have t1 := two_le_rdpSegF e1 n (((p :: ps).get? (farthest a b (p :: ps)).1).getD a)
          ((p :: ps).drop ((farthest a b (p :: ps)).1 + 1)) b
        have t2 := two_le_rdpSegF e2 n (((p :: ps).get? (farthest a b (p :: ps)).1).getD a)
          ((p :: ps).drop ((farthest a b (p :: ps)).1 + 1)) b
        simp only [List.length_append, List.length_tail]
        omega

/-- Base64 encoding of a nonempty byte list is nonempty. -/
theorem b64encode_ne_nil {bs : List Nat} (h : bs ≠ []) : b64encode bs ≠ [] := by
  match bs with
  | [] => exact absurd rfl h
  | [a] => simp [b64encode]
  | [a, b] => simp [b64encode]
  | a :: b :: c :: rest => simp [b64encode]

/-- If any submitted file fails to load, the sequential loading loop of the
batch path raises. -/
theorem load_all_error (cfg : Settings) (f : Upload) (e : PyErr)
    (hf : load_image_from_upload cfg f = .error e) :
    ∀ (files : List Upload), f ∈ files → ∃ e2, load_all cfg files = .error e2 := by
  intro files
  induction files with
  | nil => intro h; simp at h
  | cons a rest ih =>
    intro hmem
    cases hl : load_image_from_upload cfg a with
    | error e1 => exact ⟨e1, by simp [load_all, hl, Bind.bind, Except.bind]⟩
    | ok img =>
      rcases List.mem_cons.mp hmem with rfl | hmem2
      · rw [hf] at hl
        simp at hl
      · obtain ⟨e2, h2⟩ := ih hmem2
        exact ⟨e2, by simp [load_all, hl, h2, Bind.bind, Except.bind]⟩

/-- A successful end-to-end visualization comes from a successful encode of
the drawn image in the configured format. -/
theorem create_visualization_ok {dp : Deps} {cfg : Settings} {image : Img}
    {masks : List Mask} {boxes : List (List ℚ)} {scores : Option (List ℚ)}
    {alpha : ℚ} {db dm : Bool} {bs : List Nat}
    (h : create_visualization dp cfg image masks boxes scores alpha db dm = .ok bs) :
    ∃ im, encode_image_to_bytes dp im cfg.VISUALIZATION_FORMAT cfg.VISUALIZATION_QUALITY = .ok bs := by
  unfold create_visualization at h
  cases hdraw : draw_masks_and_boxes dp image masks boxes scores alpha db dm with
  | error e => rw [hdraw] at h; simp [Bind.bind, Except.bind] at h
  | ok im =>
    rw [hdraw] at h
    exact ⟨im, by simpa [Bind.bind, Except.bind] using h⟩

/-- The shared response-assembly block attaches a visualization exactly when
it was requested and at least one object was detected, and an attached
visualization encodes a nonempty byte buffer. -/
theorem finish_single_spec (dp : Deps) (cfg : Settings) (t : ℚ) (image : Img)
    (results : AdapterOutput) (rv : Bool) (resp : InferenceResponse)
    (henc : ∀ (im : Img) (bs : List Nat),
      encode_image_to_bytes dp im cfg.VISUALIZATION_FORMAT cfg.VISUALIZATION_QUALITY = .ok bs →
        bs ≠ [])
    (h : finish_single dp cfg t image results rv = .ok resp) :
    (resp.visualization_base64.isSome ↔ (rv = true ∧ 1 ≤ resp.num_objects)) ∧
    (∀ s, resp.visualization_base64 = some s → s ≠ []) := by
  unfold finish_single at h
  by_cases hc : rv = true ∧ 0 < results.scores.length
  · rw [if_pos hc] at h
    cases hviz : create_visualization dp cfg image results.masks results.boxes
        (some results.scores) (1 / 2) true true with
    | error e => rw [hviz] at h; simp at h
    | ok viz_bytes =>
      rw [hviz] at h
      obtain rfl : _ = resp := Except.ok.inj h
      constructor
      · simpa using ⟨hc.1, hc.2⟩
      · intro s hs
        obtain rfl : _ = s := Option.some.inj hs
        obtain ⟨im, him⟩ := create_visualization_ok hviz
        exact b64encode_ne_nil (henc im viz_bytes him)
  · rw [if_neg hc] at h
    obtain rfl : _ = resp := Except.ok.inj h
    constructor
    · simpa using fun h1 h2 => hc ⟨h1, h2⟩
    · intro s hs
      simp at hs

/-! Claim theorems. -/

/-- C2 counterexample: a traced contour with 3 points whose Douglas-Peucker
simplification at tolerance 1 has only 2 vertices is dropped entirely by
the conversion loop of `mask_to_polygons`; the original unsimplified contour
is not emitted (the output is empty). -/
theorem C2_counterexample :
    3 ≤ cexContour.length ∧
    (approxPolyDP cexContour 1).length < 3 ∧
    polygonsOfContours [cexContour] 1 = [] := by
  refine ⟨by decide, by decide, by decide⟩

/-- C2 amended: if Douglas-Peucker simplification at the given tolerance
reduces a traced contour of at least 3 points to fewer than 3 vertices, then
the conversion loop of `mask_to_polygons` omits that region from the output
entirely (emits nothing for it), rather than keeping the original
unsimplified contour. -/
theorem C2_amended_theorem (c : List Pt) (tol : ℚ) (h3 : 3 ≤ c.length)
    (hs : (approxPolyDP c tol).length < 3) :
    polygonsOfContours [c] tol = [] := by
  have h1 : ¬ c.length < 3 := by omega
  have h2 : ¬ (approxPolyDP c tol).length ≥ 3 := by omega
  simp [polygonsOfContours, h1, h2]

/-- C2 amended, witness at the concrete dropped contour. -/
theorem C2_amended_witness : polygonsOfContours [cexContour] 1 = [] :=
  C2_amended_theorem cexContour 1 (by decide) (by decide)

/-- C4: for every batch of masks and pair of tolerances, the area reported
at index i equals the exact foreground pixel count of mask i, is invariant
to the tolerance, and a mask with zero foreground pixels yields area 0 and
an empty polygon sequence. -/
theorem C4_area_exact (masks : List Mask) (e1 e2 : ℚ) (i : Nat) (mask : Mask)
    (pd1 pd2 : PolyData)
    (hm : masks.get? i = some mask)
    (h1 : (masks_to_polygon_data masks e1).get? i = some pd1)
    (h2 : (masks_to_polygon_data masks e2).get? i = some pd2) :
    pd1.area = (((mask.map (fun row => row.count true)).sum : Nat) : ℚ) ∧
    pd1.area = pd2.area ∧
    ((mask.map (fun row => row.count true)).sum = 0 →
      pd1.area = 0 ∧ pd1.polygons = []) := by
  rw [masks_to_polygon_data, List.get?_map, hm] at h1 h2
  obtain rfl : _ = pd1 := Option.some_injective _ h1
  obtain rfl : _ = pd2 := Option.some_injective _ h2
  refine ⟨?_, ?_, ?_⟩
  · simp [calculate_mask_area, maskCoords_length]
  · simp [calculate_mask_area]
  · intro h0
    have hnil : maskCoords mask = [] := by
      rw [← List.length_eq_zero, maskCoords_length]
      exact h0
    constructor
    · simp [calculate_mask_area, hnil]
    · exact mask_to_polygons_of_empty mask e1 hnil

/-- C4 witness: a batch holding one all-background mask, tolerances 1 and 2. -/
theorem C4_area_exact_witness :
    (PolyData.mk [] 0).area = ((0 : Nat) : ℚ) ∧
    (PolyData.mk [] 0).area = (PolyData.mk [] 0).area ∧
    ((([[false]] : Mask).map (fun row => row.count true)).sum = 0 →
      (PolyData.mk [] 0).area = 0 ∧ (PolyData.mk [] 0).polygons = []) := by
  have := C4_area_exact [[[false]]] 1 2 0 [[false]] (PolyData.mk [] 0) (PolyData.mk [] 0)
    (by rfl) (by rfl) (by rfl)
  simpa using this

/-- C6: invoked directly with an empty mask batch, the compositor succeeds
and returns the source image unmodified, and the end-to-end visualization of
zero objects is exactly the re-encoding of the source image in the
configured target format. -/
theorem C6_zero_objects_noop (dp : Deps) (cfg : Settings) (image : Img)
    (boxes : List (List ℚ)) (scores : Option (List ℚ)) (alpha : ℚ)
    (db dm : Bool) :
    draw_masks_and_boxes dp image [] boxes scores alpha db dm = .ok image ∧
    create_visualization dp cfg image [] boxes scores alpha db dm =
      encode_image_to_bytes dp image cfg.VISUALIZATION_FORMAT cfg.VISUALIZATION_QUALITY :=
  ⟨rfl, rfl⟩

/-- C7: every polygon returned by `mask_to_polygons` has at least 3
vertices, for every mask and every tolerance. -/
theorem C7_polygon_min_vertices (mask : Mask) (tol : ℚ) (poly : List Pt)
    (h : poly ∈ mask_to_polygons mask tol) : 3 ≤ poly.length :=
  polygonsOfContours_mem h

/-- C7 witness: the polygon produced for the L-shaped mask at tolerance 1. -/
theorem C7_polygon_min_vertices_witness :
    3 ≤ ([(0, 0), (0, 2), (2, 2)] : List Pt).length :=
  C7_polygon_min_vertices wMask 1 [(0, 0), (0, 2), (2, 2)] (by decide)

/-- C8: for every traced contour and every pair of (nonnegative, as OpenCV
requires) tolerances with the first below the second, the simplified polygon
at the larger tolerance has at most as many vertices as the one at the
smaller tolerance. -/
theorem C8_tolerance_monotone (contour : List Pt) (e1 e2 : ℚ)
    (h0 : 0 ≤ e1) (h12 : e1 < e2) :
    (approxPolyDP contour e2).length ≤ (approxPolyDP contour e1).length := by
  cases contour with
  | nil => simp [approxPolyDP]
  | cons a rest =>
    cases hr : rest.getLast? with
    | none => simp [approxPolyDP, hr]
    | some b =>
      simp only [approxPolyDP, hr]
      exact rdpSegF_length_mono e1 e2 h0 h12.le rest.dropLast.length a rest.dropLast b

/-- C8 witness: a square contour at tolerances 1 and 2. -/
theorem C8_tolerance_monotone_witness :
    (approxPolyDP [(0, 0), (10, 0), (10, 10), (0, 10)] 2).length ≤
      (approxPolyDP [(0, 0), (10, 0), (10, 10), (0, 10)] 1).length :=
  C8_tolerance_monotone [(0, 0), (10, 0), (10, 10), (0, 10)] 1 2 (by norm_num) (by norm_num)

/-- C1 counterexample: a 2-image batch whose second image exceeds the
maximum dimension makes `inference_batch` raise the validation error for
that image; no 2-element result sequence with a per-item error descriptor is
returned (and the `BatchImageResult` schema has no error field at all). -/
theorem C1_counterexample :
    inference_batch dpOkViz defaultSettings 0 [fileOk, fileBig]
        [some "cat", some "dog"] 0 0 false
      = .error (.valueError "image dimensions exceed limit") := by
  rfl

/-- C1 amended: a single item's failure aborts the entire batch: if any
submitted image fails loading/validation (and the batch passes the size
check), `inference_batch` raises and returns no result sequence at all. -/
theorem C1_amended_theorem (dp : Deps) (cfg : Settings) (t : ℚ)
    (files : List Upload) (prompts : List (Option String)) (th mth : ℚ)
    (rv : Bool) (k : Nat) (f : Upload) (e : PyErr)
    (hk : files.get? k = some f)
    (hf : load_image_from_upload cfg f = .error e)
    (hsz : files.length ≤ cfg.MAX_BATCH_SIZE) :
    ∃ e2, inference_batch dp cfg t files prompts th mth rv = .error e2 := by
  have hmem : f ∈ files := List.get?_mem hk
  obtain ⟨e2, h2⟩ := load_all_error cfg f e hf files hmem
  refine ⟨e2, ?_⟩
  unfold inference_batch
  rw [if_neg (by omega)]
  simp [h2, Bind.bind, Except.bind]

/-- C1 amended, witness at the concrete failing batch. -/
theorem C1_amended_witness :
    ∃ e2, inference_batch dpOkViz defaultSettings 1 [fileOk, fileBig]
        [some "cat", some "dog"] 0 0 false = .error e2 :=
  C1_amended_theorem dpOkViz defaultSettings 1 [fileOk, fileBig]
    [some "cat", some "dog"] 0 0 false 1 fileBig
    (.valueError "image dimensions exceed limit") (by rfl) (by rfl) (by decide)

/-- C3 counterexample: a single-image request with visualization requested
and one detected object, whose image encoder raises: `inference_text`
propagates the failure and returns no geometry-only response. -/
theorem C3_counterexample :
    inference_text dpFailViz defaultSettings 0 fileOk "cat" 0 0 true
      = (.error (.runtimeError "encode failed"), true) := by
  rfl

/-- C3 amended: when the visualization step (drawing or encoding) raises on
a request with visualization requested and at least one detected object, the
error propagates out of `inference_text`: the whole request fails and the
geometry results are not returned. -/
theorem C3_amended_theorem (dp : Deps) (cfg : Settings) (t : ℚ) (file : Upload)
    (prompt : String) (th mth : ℚ) (image : Img) (results : AdapterOutput)
    (e : PyErr)
    (hload : load_image_from_upload cfg file = .ok image)
    (hadapter : dp.adapterText image prompt th mth = .ok results)
    (hn : 0 < results.scores.length)
    (hviz : create_visualization dp cfg image results.masks results.boxes
        (some results.scores) (1 / 2) true true = .error e) :
    inference_text dp cfg t file prompt th mth true = (.error e, true) := by
  unfold inference_text
  rw [hload]
  dsimp only
  rw [hadapter]
  dsimp only
  unfold finish_single
  rw [if_pos ⟨rfl, hn⟩, hviz]

/-- C3 amended, witness at the concrete failing encoder. -/
theorem C3_amended_witness :
    inference_text dpFailViz defaultSettings 1 fileOk "cat" 0 0 true
      = (.error (.runtimeError "encode failed"), true) :=
  C3_amended_theorem dpFailViz defaultSettings 1 fileOk "cat" 0 0 imgOk
    adapterOut1 (.runtimeError "encode failed") (by rfl) (by rfl) (by decide) (by rfl)

/-- C5: for every single-image request (text or bbox entry point) that
succeeds, the visualization field is present exactly when visualization was
requested and at least one object was detected, and a present field holds a
nonempty encoding (raster encoders return nonempty byte buffers); in all
other cases the field is `none`. -/
theorem C5_visualization_iff (dp : Deps) (cfg : Settings) (t : ℚ)
    (file : Upload) (prompt : String) (bxs : List (List Int)) (lbls : List Int)
    (th mth : ℚ) (rv : Bool) (resp : InferenceResponse)
    (henc : ∀ (im : Img) (bs : List Nat),
      encode_image_to_bytes dp im cfg.VISUALIZATION_FORMAT cfg.VISUALIZATION_QUALITY = .ok bs →
        bs ≠ [])
    (h : (inference_text dp cfg t file prompt th mth rv).1 = .ok resp ∨
         (inference_bbox dp cfg t file bxs lbls th mth rv).1 = .ok resp) :
    (resp.visualization_base64.isSome ↔ (rv = true ∧ 1 ≤ resp.num_objects)) ∧
    (∀ s, resp.visualization_base64 = some s → s ≠ []) := by
  rcases h with h | h
  · unfold inference_text at h
    cases hl : load_image_from_upload cfg file with
    | error e => rw [hl] at h; simp at h
    | ok image =>
      rw [hl] at h
      dsimp only at h
      cases ha : dp.adapterText image prompt th mth with
      | error e => rw [ha] at h; simp at h
      | ok results =>
        rw [ha] at h
        dsimp only at h
        exact finish_single_spec dp cfg t image results rv resp henc h
  · unfold inference_bbox at h
    cases hl : load_image_from_upload cfg file with
    | error e => rw [hl] at h; simp at h
    | ok image =>
      rw [hl] at h
      dsimp only at h
      cases ha : dp.adapterBox image bxs lbls th mth with
      | error e => rw [ha] at h; simp at h
      | ok results =>
        rw [ha] at h
        dsimp only at h
        exact finish_single_spec dp cfg t image results rv resp henc h

/-- C5 witness: the successful request for `fileOk` under `dpOkViz` with
visualization requested. -/
theorem C5_visualization_iff_witness :
    (respOkViz.visualization_base64.isSome ↔ (true = true ∧ 1 ≤ respOkViz.num_objects)) ∧
    (∀ s, respOkViz.visualization_base64 = some s → s ≠ []) :=
  C5_visualization_iff dpOkViz defaultSettings 0 fileOk "cat" [] [] 0 0 true respOkViz
    (by
      intro im bs hbs
      have : encode_image_to_bytes dpOkViz im defaultSettings.VISUALIZATION_FORMAT
          defaultSettings.VISUALIZATION_QUALITY = .ok [1, 2, 3] := by rfl
      rw [this] at hbs
      obtain rfl : _ = bs := Except.ok.inj hbs
      simp)
    (Or.inl (by rfl))

/-- C9: a single-image request whose encoded payload exceeds the megabyte
ceiling or whose decoded width or height exceeds the maximum dimension is
rejected with a `ValueError` (mapped to a 400 client fault) by both entry
points, and the model adapter is never invoked (the invocation flag stays
false). -/
theorem C9_size_limit_rejects (dp : Deps) (cfg : Settings) (t : ℚ)
    (file : Upload) (prompt : String) (bxs : List (List Int)) (lbls : List Int)
    (th mth : ℚ) (rv : Bool)
    (h : cfg.MAX_IMAGE_SIZE_MB * 1024 * 1024 < file.sizeBytes ∨
         ∃ img, file.image = some img ∧
           (cfg.MAX_IMAGE_DIMENSION < img.width ∨ cfg.MAX_IMAGE_DIMENSION < img.height)) :
    ∃ msg, load_image_from_upload cfg file = .error (.valueError msg) ∧
      inference_text dp cfg t file prompt th mth rv = (.error (.valueError msg), false) ∧
      inference_bbox dp cfg t file bxs lbls th mth rv = (.error (.valueError msg), false) ∧
      routerStatus (.valueError msg) = 400 := by
  have hload : ∃ msg, load_image_from_upload cfg file = .error (.valueError msg) := by
    unfold load_image_from_upload
    by_cases hs : cfg.MAX_IMAGE_SIZE_MB * 1024 * 1024 < file.sizeBytes
    · exact ⟨"image size exceeds limit", by rw [if_pos hs]⟩
    · rcases h with h | ⟨img, himg, hdim⟩
      · exact absurd h hs
      · rw [if_neg hs, himg]
        refine ⟨"image dimensions exceed limit", ?_⟩
        have hw : (if img.mode ≠ "RGB" then { img with mode := "RGB" } else img).width
            = img.width := by split <;> rfl
        have hh : (if img.mode ≠ "RGB" then { img with mode := "RGB" } else img).height
            = img.height := by split <;> rfl
        simp only []
        rw [if_pos]
        rw [hw, hh]
        exact hdim
  obtain ⟨msg, hmsg⟩ := hload
  refine ⟨msg, hmsg, ?_, ?_, rfl⟩
  · unfold inference_text
    rw [hmsg]
  · unfold inference_bbox
    rw [hmsg]

/-- C9 witness: the over-wide upload under the default settings. -/
theorem C9_size_limit_rejects_witness :
    ∃ msg, load_image_from_upload defaultSettings fileBig = .error (.valueError msg) ∧
      inference_text dpOkViz defaultSettings 0 fileBig "cat" 0 0 false
        = (.error (.valueError msg), false) ∧
      inference_bbox dpOkViz defaultSettings 0 fileBig [] [] 0 0 false
        = (.error (.valueError msg), false) ∧
      routerStatus (.valueError msg) = 400 :=
  C9_size_limit_rejects dpOkViz defaultSettings 0 fileBig "cat" [] [] 0 0 false
    (Or.inr ⟨imgBig, rfl, Or.inl (by decide)⟩)

/-- C10: a batch of zero images with a matching empty prompt list passes the
route's length check and the batch-size check, and `inference_batch` then
raises `ZeroDivisionError` while computing the average time per image; the
route maps it to a 500 server fault, not a validation error. -/
theorem C10_empty_batch_division (dp : Deps) (cfg : Settings) (t th mth : ℚ)
    (rv : Bool) (h : ∃ rs, dp.adapterBatch [] [] th mth = .ok rs) :
    inference_batch dp cfg t [] [] th mth rv = .error .zeroDivisionError ∧
    batch_endpoint dp cfg t [] [] th mth rv = .error (500, .zeroDivisionError) := by
  obtain ⟨rs, hrs⟩ := h
  have h1 : inference_batch dp cfg t [] [] th mth rv = .error .zeroDivisionError := by
    unfold inference_batch
    rw [if_neg (by simp)]
    simp [load_all, hrs, buildItems, pyDiv, Bind.bind, Except.bind]
  refine ⟨h1, ?_⟩
  unfold batch_endpoint
  rw [if_neg (by simp), h1]
  rfl

/-- C10 witness: the empty batch under always-succeeding collaborators. -/
theorem C10_empty_batch_division_witness :
    inference_batch dpOkViz defaultSettings 0 [] [] 0 0 false = .error .zeroDivisionError ∧
    batch_endpoint dpOkViz defaultSettings 0 [] [] 0 0 false = .error (500, .zeroDivisionError) :=
  C10_empty_batch_division dpOkViz defaultSettings 0 0 0 false ⟨[], by rfl⟩

end Sam3
